import Mathlib

/-!
# Verification of the whisper-dictation daemon core

A shallow embedding of the hotkey state machine, keyboard-device selection,
recording orchestration and transcription pipeline of the whisper-dictation
repository (`src/whisper_dictation/daemon.py`, `config.py`, `transcriber.py`,
`paste.py`), together with theorems settling the behavioral claims about it.

Machine key codes are Linux evdev codes, modelled as `Nat`.  Python strings
are modelled as Lean `String` / `List Char`; the text handled by the daemon
is ASCII, for which Lean's `Char.toLower`/`Char.toUpper` agree with Python's
`str.lower`/`str.upper`.
-/

namespace WhisperDictation

/- ## String helpers (Python semantics)

`listIsPrefix sub l` decides whether `sub` is a prefix of `l`;
`listContainsSub sub l` decides Python's substring operator `sub in l`
(the empty string is contained in everything). -/

def listIsPrefix : List Char → List Char → Bool
  | [], _ => true
  | _ :: _, [] => false
  | a :: as, b :: bs => a == b && listIsPrefix as bs

def listContainsSub (sub : List Char) : List Char → Bool
  | [] => sub.isEmpty
  | b :: bs => listIsPrefix sub (b :: bs) || listContainsSub sub bs

/-- Python `pattern.lower() in name.lower()`: case-insensitive substring test. -/
def strContainsCI (hay pat : String) : Bool :=
  listContainsSub (pat.toList.map Char.toLower) (hay.toList.map Char.toLower)

/- ## evdev key codes used by the configuration (`from evdev import ecodes`) -/

namespace ecodes
def KEY_LEFTCTRL : Nat := 29
def KEY_A : Nat := 30
def KEY_SEMICOLON : Nat := 39
def KEY_LEFTSHIFT : Nat := 42
def KEY_COMMA : Nat := 51
def KEY_DOT : Nat := 52
def KEY_SLASH : Nat := 53
def KEY_RIGHTSHIFT : Nat := 54
def KEY_LEFTALT : Nat := 56
def KEY_SPACE : Nat := 57
def KEY_RIGHTCTRL : Nat := 97
def KEY_RIGHTALT : Nat := 100
def KEY_LEFTMETA : Nat := 125
def KEY_RIGHTMETA : Nat := 126
end ecodes

/- ## config.py: hotkey resolution -/

/-- `Config.MODIFIER_MAP`: modifier names to evdev code lists. -/
def MODIFIER_MAP : List (String × List Nat) :=
  [("super", [ecodes.KEY_LEFTMETA, ecodes.KEY_RIGHTMETA]),
   ("ctrl", [ecodes.KEY_LEFTCTRL, ecodes.KEY_RIGHTCTRL]),
   ("alt", [ecodes.KEY_LEFTALT, ecodes.KEY_RIGHTALT]),
   ("shift", [ecodes.KEY_LEFTSHIFT, ecodes.KEY_RIGHTSHIFT])]

/-- `Config.KEY_MAP`: trigger-key names to evdev codes. -/
def KEY_MAP : List (String × Nat) :=
  [("period", ecodes.KEY_DOT),
   ("comma", ecodes.KEY_COMMA),
   ("space", ecodes.KEY_SPACE),
   ("slash", ecodes.KEY_SLASH),
   ("semicolon", ecodes.KEY_SEMICOLON)]

/-- The `hotkey` section of the configuration: modifier names and key name. -/
structure HotkeyNames where
  modifiers : List String
  key : String

/-- `Config.get_hotkey_modifiers`: for each configured name, if it is in
`MODIFIER_MAP` extend the result with its codes, otherwise skip it silently. -/
def get_hotkey_modifiers (hk : HotkeyNames) : List Nat :=
  hk.modifiers.foldl
    (fun keycodes mod =>
      match MODIFIER_MAP.find? (fun p => p.1 == mod) with
      | some p => keycodes ++ p.2
      | none => keycodes)
    []

/-- `Config.get_hotkey_key`: `KEY_MAP.get(key_name, ecodes.KEY_DOT)`. -/
def get_hotkey_key (hk : HotkeyNames) : Nat :=
  match KEY_MAP.find? (fun p => p.1 == hk.key) with
  | some p => p.2
  | none => ecodes.KEY_DOT

/- ## daemon.py: key-event processing (`DictationDaemon.on_key_event`)

Only `EV_KEY` events reach the body of `on_key_event` (other event types
return immediately and change nothing), so events are modelled as key events:
`value` is 1 for key-down, 0 for key-up, 2 for autorepeat. -/

structure KeyEvent where
  code : Nat
  value : Nat
  deriving DecidableEq

/-- The daemon's mutable state: `keys_pressed` (a set, modelled as a
duplicate-free list) and `is_recording`. -/
structure DaemonState where
  keysPressed : List Nat
  isRecording : Bool
  deriving DecidableEq

def initialState : DaemonState := { keysPressed := [], isRecording := false }

/-- `DictationDaemon._track_key_state`: insert the code on key-down,
discard it on key-up, ignore other values (autorepeat). -/
def track_key_state (keys : List Nat) (e : KeyEvent) : List Nat :=
  if e.value == 1 then (if keys.contains e.code then keys else keys ++ [e.code])
  else if e.value == 0 then keys.filter (fun k => k != e.code)
  else keys

/-- The resolved hotkey: modifier code set (any-of) and trigger code. -/
structure Hotkey where
  modifiers : List Nat
  key : Nat

/-- Which of the two guarded orchestration calls a processed event fires:
`activate` = the hotkey-press branch (calls `start_recording`),
`deactivate` = the hotkey-release branch (calls
`stop_recording_and_transcribe`), `silent` = neither. -/
inductive Emission where
  | activate
  | deactivate
  | silent
  deriving DecidableEq

/-- `DictationDaemon.on_key_event`, with the recording flag updated by the
guarded branch it fires (`start_recording` sets it true, entered only when
`not is_recording`; `stop_recording_and_transcribe` sets it false, entered
only when `is_recording`; their internal idempotency guards are made
redundant by the branch conditions).  The two `if` statements of the source
are mutually exclusive (`value` cannot be both 1 and 0). -/
def on_key_event (hk : Hotkey) (s : DaemonState) (e : KeyEvent) :
    DaemonState × Emission :=
  let keys := track_key_state s.keysPressed e
  let has_modifiers := hk.modifiers.any (fun mod => keys.contains mod)
  if has_modifiers && e.code == hk.key && e.value == 1 && !s.isRecording then
    ({ keysPressed := keys, isRecording := true }, .activate)
  else if e.code == hk.key && e.value == 0 && s.isRecording then
    ({ keysPressed := keys, isRecording := false }, .deactivate)
  else
    ({ s with keysPressed := keys }, .silent)

/-- Process a sequence of events, collecting the non-silent emissions. -/
def emissions (hk : Hotkey) (s : DaemonState) : List KeyEvent → List Emission
  | [] => []
  | e :: es =>
      match on_key_event hk s e with
      | (s2, .silent) => emissions hk s2 es
      | (s2, em) => em :: emissions hk s2 es

/- ## daemon.py: device selection -/

/-- An enumerated input device, as the daemon sees it after `InputDevice`
opens it: its name and its `EV_KEY` capability list (`none` when the
capability dictionary has no `EV_KEY` entry). -/
structure RawDevice where
  name : String
  keyCaps : Option (List Nat)
  deriving DecidableEq

/-- `DictationDaemon._is_virtual_device`: deny-list of name substrings. -/
def virtual_patterns : List String :=
  ["virtual", "ydotoold", "xdotool", "uinput",
   "sleep button", "power button", "lid switch", "video bus"]

def is_virtual_device (device_name : String) : Bool :=
  virtual_patterns.any (fun pattern => strContainsCI device_name pattern)

/-- `DictationDaemon._has_required_keys`: `(False, False)` without an
`EV_KEY` capability; otherwise (`KEY_A` present,
`KEY_LEFTMETA` or `KEY_RIGHTMETA` or `KEY_LEFTCTRL` present). -/
def has_required_keys (capabilities : Option (List Nat)) : Bool × Bool :=
  match capabilities with
  | none => (false, false)
  | some keys =>
      (keys.contains ecodes.KEY_A,
       keys.contains ecodes.KEY_LEFTMETA || keys.contains ecodes.KEY_RIGHTMETA
         || keys.contains ecodes.KEY_LEFTCTRL)

/-- The admission test of the candidate loop in
`DictationDaemon.find_keyboard_device`: not skipped for missing letters,
missing modifiers, or a virtual name. -/
def is_candidate (d : RawDevice) : Bool :=
  (has_required_keys d.keyCaps).1 && (has_required_keys d.keyCaps).2
    && !is_virtual_device d.name

/-- `DictationDaemon._select_best_keyboard`: `None` on an empty list, else
the first candidate whose name contains "keyboard" (case-insensitively),
else the first candidate. -/
def select_best_keyboard (candidates : List RawDevice) : Option RawDevice :=
  if candidates.isEmpty then none
  else
    match candidates.find? (fun d => strContainsCI d.name "keyboard") with
    | some d => some d
    | none => candidates.head?

/-- `DictationDaemon.find_keyboard_device` over the enumerated device list
(devices whose `InputDevice` constructor raises are skipped by the
`except` clause and are not in the list). -/
def find_keyboard_device (devices : List RawDevice) : Option RawDevice :=
  let candidates := devices.filter is_candidate
  if candidates.isEmpty then none
  else select_best_keyboard candidates

/- ## daemon.py: recording orchestration

The externally visible actions of the orchestration path, in the order the
code performs them.  `dispatchTranscription` stands for the single
`transcriber.transcribe_async(audio_file, on_complete, on_error)` call;
the continuations themselves are modelled below with the transcriber. -/

inductive Effect where
  | uiRecording
  | uiTranscribing
  | uiError (message : String)
  | uiSuccess (text : String)
  | recorderStart
  | recorderStop
  | dispatchTranscription
  | pasteText (text : String)
  | uiClose
  | exitProcess (code : Nat)
  deriving DecidableEq

/-- `AudioRecorder.stop()`'s result as the orchestrator inspects it: whether
`audio_file.exists()` holds and `audio_file.stat().st_size`. -/
structure AudioHandle where
  fileExists : Bool
  size : Nat
  deriving DecidableEq

/-- `DictationDaemon.start_recording`, with `startFailure` true when
`recorder.start()` raises.  The returned `Bool` is true when the exception
propagates to the caller: the flag was already set and
`ui.show_recording()` already called (`DictationUI._notify` swallows its
own errors), and nothing rolls the flag back. -/
def start_recording (startFailure : Bool) (s : DaemonState) :
    DaemonState × List Effect × Bool :=
  if s.isRecording then (s, [], false)
  else
    let s2 : DaemonState := { s with isRecording := true }
    if startFailure then (s2, [.uiRecording], true)
    else (s2, [.uiRecording, .recorderStart], false)

/-- The minimum byte size below which a capture is treated as
"recording too short to contain speech". -/
def minAudioSize : Nat := 10000

/-- The validation in `stop_recording_and_transcribe`:
`not audio_file or not audio_file.exists() or audio_file.stat().st_size < 10000`. -/
def audioInvalid (audio : Option AudioHandle) : Bool :=
  match audio with
  | none => true
  | some a => !a.fileExists || a.size < minAudioSize

/-- `DictationDaemon.stop_recording_and_transcribe`, with `audio` the value
returned by `recorder.stop()`. -/
def stop_recording_and_transcribe (s : DaemonState) (audio : Option AudioHandle) :
    DaemonState × List Effect :=
  if !s.isRecording then (s, [])
  else
    let s2 : DaemonState := { s with isRecording := false }
    if audioInvalid audio then
      (s2, [.recorderStop, .uiTranscribing, .uiError "No audio recorded"])
    else
      (s2, [.recorderStop, .uiTranscribing, .dispatchTranscription])

/-- The environment of one event-loop step: whether `recorder.start()`
raises, and what `recorder.stop()` returns. -/
structure Env where
  startFailure : Bool
  stopResult : Option AudioHandle

/-- `on_key_event` with the orchestration calls inlined: state, the effects
performed, and whether an exception escaped to the event loop. -/
def on_key_event_run (hk : Hotkey) (env : Env) (s : DaemonState) (e : KeyEvent) :
    DaemonState × List Effect × Bool :=
  let keys := track_key_state s.keysPressed e
  let has_modifiers := hk.modifiers.any (fun mod => keys.contains mod)
  let s2 : DaemonState := { s with keysPressed := keys }
  if has_modifiers && e.code == hk.key && e.value == 1 && !s.isRecording then
    start_recording env.startFailure s2
  else if e.code == hk.key && e.value == 0 && s.isRecording then
    let (s3, effs) := stop_recording_and_transcribe s2 env.stopResult
    (s3, effs, false)
  else
    (s2, [], false)

/-- The `cleanup` handler installed by `DictationDaemon.run`: stop the
recorder when recording, close the UI, `sys.exit(0)`. -/
def cleanup (s : DaemonState) : List Effect :=
  (if s.isRecording then [.recorderStop] else []) ++ [.uiClose, .exitProcess 0]

/-- One iteration of the event loop in `DictationDaemon.run`: process the
event; when an exception escapes, the `except Exception` clause logs a
fatal error and calls `cleanup`, which exits the process.  The returned
`Bool` is true when the loop terminated. -/
def run_step (hk : Hotkey) (env : Env) (s : DaemonState) (e : KeyEvent) :
    DaemonState × List Effect × Bool :=
  let (s2, effs, raised) := on_key_event_run hk env s e
  if raised then (s2, effs ++ cleanup s2, true) else (s2, effs, false)

/- ## transcriber.py: post-processing (`WhisperTranscriber._post_process`)

The two `re.sub` calls are modelled as scanners over the character list.
The text handled by the daemon is ASCII, for which Python's `\s`, `\w`,
`str.strip`, `str.lower` and `str.upper` coincide with the definitions
below. -/

/-- Python `\s` on ASCII: space, tab, newline, carriage return, vertical
tab, form feed. -/
def wsChar (c : Char) : Bool :=
  c == ' ' || c == '\t' || c == '\n' || c == '\r' || c == '\x0b' || c == '\x0c'

/-- Python `str.strip()`: drop whitespace from both ends. -/
def stripChars (cs : List Char) : List Char :=
  ((cs.dropWhile wsChar).reverse.dropWhile wsChar).reverse

/-- `re.sub(r"\s+", " ", text)`: each maximal whitespace run becomes one
space.  `prevWs` records whether the previous character was whitespace
(the current run is already represented). -/
def collapseWs (prevWs : Bool) : List Char → List Char
  | [] => []
  | c :: cs =>
      if wsChar c then
        (if prevWs then [] else [' ']) ++ collapseWs true cs
      else c :: collapseWs false cs

/-- Python `\w` on ASCII: letters, digits, underscore. -/
def isWordChar (c : Char) : Bool := c.isAlphanum || c == '_'

/-- The alternatives of `r"\b(um|uh|like|you know)\b"`, in the order the
regex engine tries them.  Every alternative starts and ends with a word
character, so the surrounding `\b`s hold iff the neighbouring text
characters (when present) are non-word characters. -/
def fillerPatterns : List (List Char) :=
  [['u', 'm'], ['u', 'h'], ['l', 'i', 'k', 'e'],
   ['y', 'o', 'u', ' ', 'k', 'n', 'o', 'w']]

/-- Case-insensitive match of a (lowercase) pattern against the front of the
text; returns the remaining text on success. -/
def matchCaseless : List Char → List Char → Option (List Char)
  | [], rest => some rest
  | _ :: _, [] => none
  | p :: ps, c :: cs => if p == c.toLower then matchCaseless ps cs else none

/-- The trailing `\b`: the rest of the text is empty or starts with a
non-word character. -/
def boundaryAfter : List Char → Bool
  | [] => true
  | c :: _ => !isWordChar c

/-- Try the alternatives in order at the current position; return the
length of the first alternative that matches with a valid trailing
boundary. -/
def tryFillers : List (List Char) → List Char → Option Nat
  | [], _ => none
  | p :: ps, cs =>
      match matchCaseless p cs with
      | some rest => if boundaryAfter rest then some p.length else tryFillers ps cs
      | none => tryFillers ps cs

/-- `re.sub(r"\b(um|uh|like|you know)\b", "", text, flags=re.IGNORECASE)`:
left-to-right, non-overlapping replacement by the empty string.
`prevWord` records whether the previous character of the original text is a
word character (false at the start of the string); since every alternative
starts with a word character, the leading `\b` can hold only when
`prevWord` is false.  After a match the previous character is the
alternative's last character, a word character.  `fuel` bounds the
recursion; every step consumes at least one character, so
`fuel = cs.length` makes the exhaustion case unreachable. -/
def subFillersAux : Nat → Bool → List Char → List Char
  | 0, _, cs => cs
  | _ + 1, _, [] => []
  | fuel + 1, prevWord, c :: cs =>
      match if prevWord then none else tryFillers fillerPatterns (c :: cs) with
      | some n => subFillersAux fuel true ((c :: cs).drop n)
      | none => c :: subFillersAux fuel (isWordChar c) cs

def subFillers (cs : List Char) : List Char :=
  subFillersAux cs.length false cs

/-- `text[0].upper() + text[1:]` on a non-empty string. -/
def capitalizeFirst : List Char → List Char
  | [] => []
  | c :: cs => c.toUpper :: cs

/-- The `processing` flags the transcriber reads via `config.get`. -/
structure ProcessingFlags where
  remove_filler_words : Bool
  auto_capitalize : Bool
  deriving DecidableEq

/-- The `processing` entries of `Config.DEFAULT_CONFIG`. -/
def defaultProcessing : ProcessingFlags :=
  { remove_filler_words := true, auto_capitalize := true }

/-- `WhisperTranscriber._post_process`. -/
def post_process (flags : ProcessingFlags) (text : List Char) : List Char :=
  if text.isEmpty then []
  else
    let t1 := stripChars text
    let t2 :=
      if flags.remove_filler_words then stripChars (collapseWs false (subFillers t1))
      else t1
    if flags.auto_capitalize && !t2.isEmpty then capitalizeFirst t2 else t2

/- ## transcriber.py: `WhisperTranscriber.transcribe` -/

/-- The possible outcomes of the body of `transcribe` up to and including
the bounded `subprocess.run(..., timeout=60)` call and the output-file
read:
- `modelMissing`: `self.model_path.exists()` is false, so the
  `FileNotFoundError` is raised before the `try` block;
- `timeoutExpired`: the call exceeded the 60-second bound
  (`subprocess.TimeoutExpired`);
- `raisedOther`: any other exception inside the `try` block;
- `completed rc textFile`: the call returned with exit status `rc`, and the
  output text file held `textFile` (`none` when the file was not created). -/
inductive CallOutcome where
  | modelMissing
  | timeoutExpired
  | raisedOther (message : String)
  | completed (returncode : Int) (textFile : Option (List Char))
  deriving DecidableEq

/-- The message of the `FileNotFoundError` raised when the model file is
absent. -/
def modelNotFoundMsg (modelPath modelName : String) : String :=
  "Whisper model not found at " ++ modelPath
    ++ ". Download with: whisper-cpp-download-ggml-model " ++ modelName

/-- `WhisperTranscriber.transcribe`: `.error` models an exception
propagating to the caller, `.ok` a normal return.  The `except` clauses
catch `TimeoutExpired` and every other in-`try` exception and return
`None`; a non-zero exit status and a missing output file also return
`None`; otherwise the file contents are stripped, post-processed, and an
empty result becomes `None`. -/
def transcribe (flags : ProcessingFlags) (modelPath modelName : String)
    (o : CallOutcome) : Except String (Option (List Char)) :=
  match o with
  | .modelMissing => .error (modelNotFoundMsg modelPath modelName)
  | .timeoutExpired => .ok none
  | .raisedOther _ => .ok none
  | .completed rc textFile =>
      if rc != 0 then .ok none
      else
        match textFile with
        | none => .ok none
        | some raw =>
            let text := post_process flags (stripChars raw)
            .ok (if text.isEmpty then none else some text)

/-- Which continuation the background thread of
`WhisperTranscriber.transcribe_async` invokes: `run()` calls
`on_complete(text)` when `transcribe` returns, `on_error(str(e))` when it
raises.  (This is the transcriber-level view, in which the continuations
themselves return normally; `dispatchRun` below models the daemon's actual
continuations, where `on_complete` can itself raise.) -/
inductive ContinuationCall where
  | onComplete (text : Option (List Char))
  | onError (message : String)
  deriving DecidableEq

def transcribe_async (flags : ProcessingFlags) (modelPath modelName : String)
    (o : CallOutcome) : ContinuationCall :=
  match transcribe flags modelPath modelName o with
  | .ok text => .onComplete text
  | .error e => .onError e

/- ## paste.py and the daemon's transcription continuations -/

/-- `TextPaster.paste`: returns immediately on empty text; otherwise runs
`ydotool type`, and on failure logs and re-raises (`pasteFailure` holds the
`str(e)` of the re-raised exception when the call fails). -/
def paste (pasteFailure : Option String) (text : List Char) :
    Except String (List Effect) :=
  if text.isEmpty then .ok []
  else
    match pasteFailure with
    | none => .ok [.pasteText (String.mk text)]
    | some e => .error e

/-- The `on_transcription_complete` closure in
`stop_recording_and_transcribe`: on truthy text, `paster.paste(text)` then
`ui.show_success(text)`; a `paste` exception propagates out before
`show_success` runs.  Falsy text (`None`) shows "No speech detected". -/
def on_transcription_complete (pasteFailure : Option String)
    (text : Option (List Char)) : Except String (List Effect) :=
  match text with
  | some t =>
      if !t.isEmpty then
        match paste pasteFailure t with
        | .ok effs => .ok (effs ++ [.uiSuccess (String.mk t)])
        | .error e => .error e
      else .ok [.uiError "No speech detected"]
  | none => .ok [.uiError "No speech detected"]

/-- The `on_transcription_error` closure. -/
def on_transcription_error (error : String) : List Effect :=
  [.uiError ("Transcription failed: " ++ error)]

/-- The whole background thread body `run()` of `transcribe_async`, with
the daemon's continuations plugged in: `on_complete` is invoked inside the
`try`, so an exception it raises (a paste failure) is caught by the same
`except` clause and additionally invokes `on_error`. -/
def dispatchRun (flags : ProcessingFlags) (modelPath modelName : String)
    (pasteFailure : Option String) (o : CallOutcome) : List Effect :=
  match transcribe flags modelPath modelName o with
  | .error e => on_transcription_error e
  | .ok text =>
      match on_transcription_complete pasteFailure text with
      | .ok effs => effs
      | .error e => on_transcription_error e

/-- `modifiersHeld` of the spec: some configured modifier code is in the
pressed-key set the event handler consults (the set after
`_track_key_state` has processed the event). -/
def modifiersHeld (hk : Hotkey) (s : DaemonState) (e : KeyEvent) : Bool :=
  hk.modifiers.any (fun mod => (track_key_state s.keysPressed e).contains mod)

/-- Strict alternation of emissions, starting from a recording flag:
from `false` the next emission must be `activate`, from `true` it must be
`deactivate`. -/
def alternatesFrom : Bool → List Emission → Bool
  | _, [] => true
  | false, .activate :: rest => alternatesFrom true rest
  | true, .deactivate :: rest => alternatesFrom false rest
  | _, _ => false

/-- The evdev codes of the 26 alphabetic keys. -/
def alphabeticKeyCodes : List Nat :=
  [16, 17, 18, 19, 20, 21, 22, 23, 24, 25,        -- Q W E R T Y U I O P
   30, 31, 32, 33, 34, 35, 36, 37, 38,            -- A S D F G H J K L
   44, 45, 46, 47, 48, 49, 50]                    -- Z X C V B N M

/-- The candidate-admission rule as the claim words it: the device reports
at least one alphabetic key code, at least one of
{left-meta, right-meta, left-ctrl}, and its name matches no deny-list
substring.  (The source instead tests specifically for `KEY_A`.) -/
def claimCandidate (d : RawDevice) : Bool :=
  (match d.keyCaps with
   | none => false
   | some keys => alphabeticKeyCodes.any (fun c => keys.contains c))
  && (match d.keyCaps with
      | none => false
      | some keys =>
          keys.contains ecodes.KEY_LEFTMETA || keys.contains ecodes.KEY_RIGHTMETA
            || keys.contains ecodes.KEY_LEFTCTRL)
  && !is_virtual_device d.name

/-- The dispatch routing as amended: exactly one continuation is invoked
per dispatch (the result is a single `ContinuationCall`); only the
pre-call model-missing failure reaches `onError`; timeout expiry, in-call
exceptions, a non-zero exit status and a missing output file are all
reported as `onComplete none` — the same value as a clean no-speech run —
and a clean run with non-empty post-processed text as
`onComplete (some text)`. -/
def amendedDispatchSpec (flags : ProcessingFlags) (modelPath modelName : String) :
    CallOutcome → ContinuationCall
  | .modelMissing => .onError (modelNotFoundMsg modelPath modelName)
  | .timeoutExpired => .onComplete none
  | .raisedOther _ => .onComplete none
  | .completed rc textFile =>
      if rc ≠ 0 then .onComplete none
      else
        match textFile with
        | none => .onComplete none
        | some raw =>
            let text := post_process flags (stripChars raw)
            .onComplete (if text.isEmpty then none else some text)

/-- Single-spacing check: every whitespace character of the list is the
single space character and is not preceded by whitespace (`prevWs` says
whether the character before the list was whitespace). -/
def singleSpacedFrom (prevWs : Bool) : List Char → Bool
  | [] => true
  | c :: cs =>
      if wsChar c then !prevWs && c == ' ' && singleSpacedFrom true cs
      else singleSpacedFrom false cs

/-- The text `_post_process` holds just before its capitalization step. -/
def preCapitalize (flags : ProcessingFlags) (text : List Char) : List Char :=
  if text.isEmpty then []
  else
    let t1 := stripChars text
    if flags.remove_filler_words then stripChars (collapseWs false (subFillers t1))
    else t1

/- ## Helper lemmas about `on_key_event` -/

theorem emission_eq_activate_iff (hk : Hotkey) (s : DaemonState) (e : KeyEvent) :
    (on_key_event hk s e).2 = .activate ↔
      modifiersHeld hk s e = true ∧ e.code = hk.key ∧ e.value = 1
        ∧ s.isRecording = false := by
  simp only [on_key_event, modifiersHeld]
  split
  · next hc =>
    simp only [Bool.and_eq_true, beq_iff_eq, Bool.not_eq_true'] at hc
    obtain ⟨⟨⟨hm, hcode⟩, hv⟩, hrec⟩ := hc
    constructor
    · intro _
      exact ⟨hm, hcode, hv, hrec⟩
    · intro _
      rfl
  · next hc =>
    split
    · next hc2 =>
      simp only [Bool.and_eq_true, beq_iff_eq] at hc2
      obtain ⟨⟨hcode, hv0⟩, hrec⟩ := hc2
      constructor
      · intro habs
        simp at habs
      · rintro ⟨-, -, hv1, -⟩
        exfalso
        omega
    · next hc2 =>
      constructor
      · intro habs
        simp at habs
      · rintro ⟨hm, hcode, hv, hrec⟩
        refine (hc ?_).elim
        simp only [Bool.and_eq_true, beq_iff_eq, Bool.not_eq_true']
        exact ⟨⟨⟨hm, hcode⟩, hv⟩, hrec⟩

theorem emission_eq_deactivate_iff (hk : Hotkey) (s : DaemonState) (e : KeyEvent) :
    (on_key_event hk s e).2 = .deactivate ↔
      e.code = hk.key ∧ e.value = 0 ∧ s.isRecording = true := by
  simp only [on_key_event]
  split
  · next hc =>
    simp only [Bool.and_eq_true, beq_iff_eq, Bool.not_eq_true'] at hc
    obtain ⟨⟨⟨hm, hcode⟩, hv1⟩, hrec⟩ := hc
    constructor
    · intro habs
      simp at habs
    · rintro ⟨-, hv0, -⟩
      exfalso
      omega
  · next hc =>
    split
    · next hc2 =>
      simp only [Bool.and_eq_true, beq_iff_eq] at hc2
      obtain ⟨⟨hcode, hv⟩, hrec⟩ := hc2
      constructor
      · intro _
        exact ⟨hcode, hv, hrec⟩
      · intro _
        rfl
    · next hc2 =>
      constructor
      · intro habs
        simp at habs
      · rintro ⟨hcode, hv, hrec⟩
        refine (hc2 ?_).elim
        simp only [Bool.and_eq_true, beq_iff_eq]
        exact ⟨⟨hcode, hv⟩, hrec⟩

theorem isRecording_after (hk : Hotkey) (s : DaemonState) (e : KeyEvent) :
    ((on_key_event hk s e).1).isRecording =
      (match (on_key_event hk s e).2 with
       | .activate => true
       | .deactivate => false
       | .silent => s.isRecording) := by
  simp only [on_key_event]
  split
  · rfl
  · split <;> rfl

theorem emissions_alternatesFrom (hk : Hotkey) (s : DaemonState)
    (es : List KeyEvent) :
    alternatesFrom s.isRecording (emissions hk s es) = true := by
  induction es generalizing s with
  | nil => cases hb : s.isRecording <;> rfl
  | cons e es ih =>
    rcases hstep : on_key_event hk s e with ⟨s2, em⟩
    have hrec := isRecording_after hk s e
    rw [hstep] at hrec
    cases em with
    | silent =>
        dsimp only at hrec
        simp only [emissions, hstep]
        have htail := ih s2
        rw [hrec] at htail
        exact htail
    | activate =>
        dsimp only at hrec
        have hflags := (emission_eq_activate_iff hk s e).mp (by rw [hstep])
        simp only [emissions, hstep]
        rw [hflags.2.2.2]
        simp only [alternatesFrom]
        have htail := ih s2
        rw [hrec] at htail
        exact htail
    | deactivate =>
        dsimp only at hrec
        have hflags := (emission_eq_deactivate_iff hk s e).mp (by rw [hstep])
        simp only [emissions, hstep]
        rw [hflags.2.2]
        simp only [alternatesFrom]
        have htail := ih s2
        rw [hrec] at htail
        exact htail

theorem chain_ne_of_alternatesFrom :
    ∀ (b : Bool) (t : List Emission), alternatesFrom b t = true →
      List.Chain' (fun a b => a ≠ b) t := by
  intro b t
  induction t generalizing b with
  | nil => intro _; exact List.chain'_nil
  | cons x rest ih =>
    intro h
    cases rest with
    | nil => exact List.chain'_singleton x
    | cons y r =>
      rw [List.chain'_cons]
      cases b with
      | false =>
        cases x with
        | activate =>
          refine ⟨?_, ih true h⟩
          cases y with
          | activate => exact Bool.noConfusion h
          | deactivate => exact fun hxy => Emission.noConfusion hxy
          | silent => exact Bool.noConfusion h
        | deactivate => exact Bool.noConfusion h
        | silent => exact Bool.noConfusion h
      | true =>
        cases x with
        | deactivate =>
          refine ⟨?_, ih false h⟩
          cases y with
          | deactivate => exact Bool.noConfusion h
          | activate => exact fun hxy => Emission.noConfusion hxy
          | silent => exact Bool.noConfusion h
        | activate => exact Bool.noConfusion h
        | silent => exact Bool.noConfusion h

/- ## Claims about the hotkey state machine -/

/-- C2: while the state machine is Idle (`is_recording = false`), the
activation branch fires iff the event is a down-event for the trigger code
and some configured modifier code is in the pressed-key set at that moment;
a trigger down-event with no modifier held never activates; and a trigger
down-event while already recording is a no-op (no emission, flag
unchanged). -/
theorem C2_idle_activation :
    (∀ (hk : Hotkey) (s : DaemonState) (e : KeyEvent), s.isRecording = false →
      ((on_key_event hk s e).2 = .activate ↔
        e.value = 1 ∧ e.code = hk.key ∧ modifiersHeld hk s e = true))
    ∧ (∀ (hk : Hotkey) (s : DaemonState) (e : KeyEvent),
        modifiersHeld hk s e = false → (on_key_event hk s e).2 ≠ .activate)
    ∧ (∀ (hk : Hotkey) (s : DaemonState) (e : KeyEvent),
        s.isRecording = true → e.code = hk.key → e.value = 1 →
        (on_key_event hk s e).2 = .silent
          ∧ ((on_key_event hk s e).1).isRecording = true) := by
  refine ⟨?_, ?_, ?_⟩
  · intro hk s e hrec
    rw [emission_eq_activate_iff]
    constructor
    · rintro ⟨hm, hcode, hv, -⟩; exact ⟨hv, hcode, hm⟩
    · rintro ⟨hv, hcode, hm⟩; exact ⟨hm, hcode, hv, hrec⟩
  · intro hk s e hm hact
    have := (emission_eq_activate_iff hk s e).mp hact
    rw [hm] at this
    exact absurd this.1 (by simp)
  · intro hk s e hrec hcode hv
    have hsilent : (on_key_event hk s e).2 = .silent := by
      cases h : (on_key_event hk s e).2 with
      | activate =>
          have hfl := (emission_eq_activate_iff hk s e).mp h
          rw [hrec] at hfl
          exact absurd hfl.2.2.2 (by decide)
      | deactivate =>
          obtain ⟨-, hv0, -⟩ := (emission_eq_deactivate_iff hk s e).mp h
          exfalso
          omega
      | silent => rfl
    refine ⟨hsilent, ?_⟩
    rw [isRecording_after, hsilent]
    exact hrec

/-- Witness for C2 at concrete inputs: with modifiers {left-meta,
right-meta} and trigger `period`, a `period` down-event while left-meta is
pressed activates from the idle state. -/
theorem C2_idle_activation_witness :
    (on_key_event ⟨[ecodes.KEY_LEFTMETA, ecodes.KEY_RIGHTMETA], ecodes.KEY_DOT⟩
        { keysPressed := [ecodes.KEY_LEFTMETA], isRecording := false }
        ⟨ecodes.KEY_DOT, 1⟩).2 = .activate :=
  (C2_idle_activation.1 _ _ _ rfl).mpr (by decide)

/-- C3: while the state machine is ComboActive (`is_recording = true`), the
deactivation branch fires iff the event is an up-event for the trigger
code, with no condition on modifiers; an event for any other code (such as
a modifier release) never deactivates. -/
theorem C3_comboactive_deactivation :
    (∀ (hk : Hotkey) (s : DaemonState) (e : KeyEvent), s.isRecording = true →
      ((on_key_event hk s e).2 = .deactivate ↔ e.code = hk.key ∧ e.value = 0))
    ∧ (∀ (hk : Hotkey) (s : DaemonState) (e : KeyEvent),
        e.code ≠ hk.key → (on_key_event hk s e).2 ≠ .deactivate) := by
  constructor
  · intro hk s e hrec
    rw [emission_eq_deactivate_iff]
    constructor
    · rintro ⟨hcode, hv, -⟩; exact ⟨hcode, hv⟩
    · rintro ⟨hcode, hv⟩; exact ⟨hcode, hv, hrec⟩
  · intro hk s e hcode hdeact
    exact hcode ((emission_eq_deactivate_iff hk s e).mp hdeact).1

/-- Witness for C3 at concrete inputs: releasing the trigger while
left-meta is still held deactivates, and releasing left-meta alone does
not. -/
theorem C3_comboactive_deactivation_witness :
    (on_key_event ⟨[ecodes.KEY_LEFTMETA, ecodes.KEY_RIGHTMETA], ecodes.KEY_DOT⟩
        { keysPressed := [ecodes.KEY_LEFTMETA, ecodes.KEY_DOT], isRecording := true }
        ⟨ecodes.KEY_DOT, 0⟩).2 = .deactivate
    ∧ (on_key_event ⟨[ecodes.KEY_LEFTMETA, ecodes.KEY_RIGHTMETA], ecodes.KEY_DOT⟩
        { keysPressed := [ecodes.KEY_LEFTMETA, ecodes.KEY_DOT], isRecording := true }
        ⟨ecodes.KEY_LEFTMETA, 0⟩).2 ≠ .deactivate :=
  ⟨(C3_comboactive_deactivation.1 _ _ _ rfl).mpr (by decide),
   C3_comboactive_deactivation.2 _ _ _ (by decide)⟩

/-- C5: over any event sequence processed from the initial state, the
non-silent emissions strictly alternate — no two adjacent emissions are
equal, so no two `activate`s occur without an intervening `deactivate` and
vice versa (the emissions take only those two values). -/
theorem C5_alternation (hk : Hotkey) (es : List KeyEvent) :
    List.Chain' (fun a b => a ≠ b) (emissions hk initialState es) :=
  chain_ne_of_alternatesFrom false (emissions hk initialState es)
    (emissions_alternatesFrom hk initialState es)

/- ## Claims about the orchestration -/

/-- C4: on deactivation while recording, an absent handle, a non-existing
file or a size below the 10000-byte threshold produces the user-visible
"No audio recorded" error and no transcription dispatch; otherwise exactly
one transcription is dispatched and no error is shown. -/
theorem C4_no_audio_validation :
    ∀ (s : DaemonState) (audio : Option AudioHandle), s.isRecording = true →
      (audioInvalid audio = true →
        (stop_recording_and_transcribe s audio).2
            = [.recorderStop, .uiTranscribing, .uiError "No audio recorded"]
          ∧ Effect.dispatchTranscription ∉ (stop_recording_and_transcribe s audio).2)
      ∧ (audioInvalid audio = false →
        ((stop_recording_and_transcribe s audio).2).count .dispatchTranscription = 1
          ∧ ∀ m, Effect.uiError m ∉ (stop_recording_and_transcribe s audio).2) := by
  intro s audio hrec
  constructor
  · intro hbad
    constructor
    · simp [stop_recording_and_transcribe, hrec, hbad]
    · simp [stop_recording_and_transcribe, hrec, hbad]
  · intro hgood
    constructor
    · simp [stop_recording_and_transcribe, hrec, hgood, List.count_cons]
    · intro m
      simp [stop_recording_and_transcribe, hrec, hgood]

/-- Witness for C4 at concrete inputs: a 500-byte capture is rejected with
the error and no dispatch; a 50000-byte capture dispatches exactly once. -/
theorem C4_no_audio_validation_witness :
    (stop_recording_and_transcribe { keysPressed := [], isRecording := true }
        (some { fileExists := true, size := 500 })).2
      = [.recorderStop, .uiTranscribing, .uiError "No audio recorded"]
    ∧ ((stop_recording_and_transcribe { keysPressed := [], isRecording := true }
        (some { fileExists := true, size := 50000 })).2).count
          .dispatchTranscription = 1 :=
  ⟨((C4_no_audio_validation _ (some ⟨true, 500⟩) rfl).1 (by decide)).1,
   ((C4_no_audio_validation _ (some ⟨true, 50000⟩) rfl).2 (by decide)).1⟩

/-- C7 counterexample: with the hotkey super+period, processing a `period`
down-event while left-meta is held and `recorder.start()` fails produces
the trace `[uiRecording, recorderStop, uiClose, exitProcess 0]` — no
`uiError` is issued, the recording flag stays `true` (no rollback), and
the loop terminates (the final `true`), contradicting all three parts of
the claim. -/
theorem C7_counterexample :
    run_step ⟨[ecodes.KEY_LEFTMETA, ecodes.KEY_RIGHTMETA], ecodes.KEY_DOT⟩
        { startFailure := true, stopResult := none }
        { keysPressed := [ecodes.KEY_LEFTMETA], isRecording := false }
        ⟨ecodes.KEY_DOT, 1⟩
      = ({ keysPressed := [ecodes.KEY_LEFTMETA, ecodes.KEY_DOT], isRecording := true },
         [.uiRecording, .recorderStop, .uiClose, .exitProcess 0], true) := by
  decide

/-- C7 amended: when `recorder.start()` raises during an activation, the
exception escapes `on_key_event` with the recording flag already set and
only `show_recording` performed; the event loop's catch-all handler then
stops the recorder, closes the UI and exits the process with status 0.
No `UISink.error` call is made and the flag is not rolled back. -/
theorem C7_start_failure_amended :
    ∀ (hk : Hotkey) (env : Env) (s : DaemonState) (e : KeyEvent),
      env.startFailure = true → (on_key_event hk s e).2 = .activate →
      run_step hk env s e =
        ({ keysPressed := track_key_state s.keysPressed e, isRecording := true },
         [.uiRecording, .recorderStop, .uiClose, .exitProcess 0], true) := by
  intro hk env s e hfail hact
  obtain ⟨hm, hcode, hv, hrec⟩ := (emission_eq_activate_iff hk s e).mp hact
  rw [modifiersHeld] at hm
  simp at hm
  simp [run_step, on_key_event_run, start_recording, cleanup,
        hm, hcode, hv, hrec, hfail]

/-- Witness for C7's amended statement at the counterexample's input. -/
theorem C7_start_failure_amended_witness :
    run_step ⟨[ecodes.KEY_LEFTMETA], ecodes.KEY_DOT⟩
        { startFailure := true, stopResult := none }
        { keysPressed := [ecodes.KEY_LEFTMETA], isRecording := false }
        ⟨ecodes.KEY_DOT, 1⟩
      = ({ keysPressed := [ecodes.KEY_LEFTMETA, ecodes.KEY_DOT], isRecording := true },
         [.uiRecording, .recorderStop, .uiClose, .exitProcess 0], true) :=
  C7_start_failure_amended ⟨[ecodes.KEY_LEFTMETA], ecodes.KEY_DOT⟩
    { startFailure := true, stopResult := none }
    { keysPressed := [ecodes.KEY_LEFTMETA], isRecording := false }
    ⟨ecodes.KEY_DOT, 1⟩ rfl (by decide)

/- ## Claim about configuration fallbacks -/

theorem foldl_unmapped_modifiers (acc : List Nat) (mods : List String)
    (h : ∀ mod ∈ mods, MODIFIER_MAP.find? (fun p => p.1 == mod) = none) :
    mods.foldl
      (fun keycodes mod =>
        match MODIFIER_MAP.find? (fun p => p.1 == mod) with
        | some p => keycodes ++ p.2
        | none => keycodes) acc = acc := by
  induction mods generalizing acc with
  | nil => rfl
  | cons m ms ih =>
    simp only [List.foldl_cons, h m (by simp)]
    exact ih acc (fun mod hm => h mod (by simp [hm]))

/-- C9: hotkey resolution is total with silent fallbacks — a trigger-key
name absent from `KEY_MAP` resolves to `KEY_DOT` (period), modifier names
absent from `MODIFIER_MAP` are dropped so that only unrecognized names
yield the empty modifier code list, and with an empty modifier list no
event can ever fire the activation branch. -/
theorem C9_hotkey_resolution_fallbacks :
    (∀ hk : HotkeyNames, (∀ p ∈ KEY_MAP, p.1 ≠ hk.key) →
        get_hotkey_key hk = ecodes.KEY_DOT)
    ∧ (∀ hk : HotkeyNames, (∀ mod ∈ hk.modifiers, ∀ p ∈ MODIFIER_MAP, p.1 ≠ mod) →
        get_hotkey_modifiers hk = [])
    ∧ (∀ (key : Nat) (s : DaemonState) (e : KeyEvent),
        (on_key_event ⟨[], key⟩ s e).2 ≠ .activate) := by
  refine ⟨?_, ?_, ?_⟩
  · intro hk h
    have hn : KEY_MAP.find? (fun p => p.1 == hk.key) = none :=
      List.find?_eq_none.mpr (fun p hp => by
        simp only [beq_iff_eq]
        exact h p hp)
    simp [get_hotkey_key, hn]
  · intro hk h
    have hn : ∀ mod ∈ hk.modifiers, MODIFIER_MAP.find? (fun p => p.1 == mod) = none :=
      fun mod hm => List.find?_eq_none.mpr (fun p hp => by
        simp only [beq_iff_eq]
        exact h mod hm p hp)
    exact foldl_unmapped_modifiers [] hk.modifiers hn
  · intro key s e hact
    have hm := ((emission_eq_activate_iff ⟨[], key⟩ s e).mp hact).1
    simp [modifiersHeld] at hm

/-- Witness for C9 at a concrete configuration made only of unrecognized
names. -/
theorem C9_hotkey_resolution_fallbacks_witness :
    get_hotkey_key ⟨["hyper"], "tilde"⟩ = ecodes.KEY_DOT
    ∧ get_hotkey_modifiers ⟨["hyper"], "tilde"⟩ = []
    ∧ (on_key_event ⟨[], ecodes.KEY_DOT⟩ initialState ⟨ecodes.KEY_DOT, 1⟩).2
        ≠ .activate :=
  ⟨C9_hotkey_resolution_fallbacks.1 ⟨["hyper"], "tilde"⟩ (by decide),
   C9_hotkey_resolution_fallbacks.2.1 ⟨["hyper"], "tilde"⟩ (by decide),
   C9_hotkey_resolution_fallbacks.2.2 ecodes.KEY_DOT initialState ⟨ecodes.KEY_DOT, 1⟩⟩

/- ## Claim about device selection -/

/-- C6 counterexample: a device reporting the alphabetic key code 16
(`KEY_Q`) and left-meta, with a clean name, satisfies the claim's
admission rule, yet `find_keyboard_device` rejects it (it lacks `KEY_A`,
the code the source actually tests), returning `none` for a list
containing only this device. -/
theorem C6_counterexample :
    claimCandidate { name := "AT Translated Set 2", keyCaps := some [16, 125] } = true
    ∧ find_keyboard_device
        [{ name := "AT Translated Set 2", keyCaps := some [16, 125] }] = none := by
  constructor
  · rfl
  · rfl

theorem find_keyboard_device_eq (devices : List RawDevice) :
    find_keyboard_device devices =
      (match (devices.filter is_candidate).find?
          (fun d => strContainsCI d.name "keyboard") with
       | some d => some d
       | none => (devices.filter is_candidate).head?) := by
  cases h0 : devices.filter is_candidate with
  | nil => simp [find_keyboard_device, select_best_keyboard, h0]
  | cons a l => simp [find_keyboard_device, select_best_keyboard, h0]

/-- C6 amended: a device is admitted as a candidate iff it reports the
`KEY_A` code (the single letter code the source tests), reports one of
{left-meta, right-meta, left-ctrl}, and its name contains no deny-list
substring; the first candidate whose name contains "keyboard"
(case-insensitively) is selected when one exists, else the first candidate
in enumeration order; `none` is returned iff the candidate list is empty. -/
theorem C6_device_selection_amended :
    (∀ (d : RawDevice) (keys : List Nat), d.keyCaps = some keys →
        (is_candidate d = true ↔
          keys.contains ecodes.KEY_A = true
          ∧ (keys.contains ecodes.KEY_LEFTMETA || keys.contains ecodes.KEY_RIGHTMETA
              || keys.contains ecodes.KEY_LEFTCTRL) = true
          ∧ is_virtual_device d.name = false))
    ∧ (∀ (devices : List RawDevice) (d : RawDevice),
        d ∈ devices.filter is_candidate ↔ d ∈ devices ∧ is_candidate d = true)
    ∧ (∀ devices : List RawDevice,
        (∃ d ∈ devices.filter is_candidate, strContainsCI d.name "keyboard" = true) →
        find_keyboard_device devices
          = (devices.filter is_candidate).find?
              (fun d => strContainsCI d.name "keyboard"))
    ∧ (∀ devices : List RawDevice,
        (∀ d ∈ devices.filter is_candidate, strContainsCI d.name "keyboard" = false) →
        find_keyboard_device devices = (devices.filter is_candidate).head?)
    ∧ (∀ devices : List RawDevice,
        find_keyboard_device devices = none ↔ devices.filter is_candidate = []) := by
  refine ⟨?_, ?_, ?_, ?_, ?_⟩
  · intro d keys hkeys
    simp [is_candidate, has_required_keys, hkeys, Bool.and_eq_true, Bool.not_eq_true',
          and_assoc]
  · intro devices d
    simp [List.mem_filter]
  · intro devices hex
    obtain ⟨d, hd, hkb⟩ := hex
    rw [find_keyboard_device_eq]
    cases hf : (devices.filter is_candidate).find?
        (fun d => strContainsCI d.name "keyboard") with
    | some d2 => rfl
    | none =>
        have := List.find?_eq_none.mp hf d hd
        exact absurd hkb (by simpa using this)
  · intro devices hall
    rw [find_keyboard_device_eq]
    have hf : (devices.filter is_candidate).find?
        (fun d => strContainsCI d.name "keyboard") = none :=
      List.find?_eq_none.mpr (fun d hd => by simp [hall d hd])
    rw [hf]
  · intro devices
    rw [find_keyboard_device_eq]
    cases h0 : devices.filter is_candidate with
    | nil => simp
    | cons a l =>
        cases hf : (List.cons a l).find? (fun d => strContainsCI d.name "keyboard") with
        | some d2 => simp
        | none => simp

/-- Witness for C6's amended statement: among a mouse, a plain candidate
and a "USB Keyboard", the keyboard-named device is selected even though it
enumerates last. -/
theorem C6_device_selection_amended_witness :
    find_keyboard_device
      [{ name := "Logitech Mouse", keyCaps := some [272] },
       { name := "Gadget", keyCaps := some [30, 29] },
       { name := "USB Keyboard", keyCaps := some [30, 125] }]
      = some { name := "USB Keyboard", keyCaps := some [30, 125] } := by
  rw [C6_device_selection_amended.2.2.1
    [{ name := "Logitech Mouse", keyCaps := some [272] },
     { name := "Gadget", keyCaps := some [30, 29] },
     { name := "USB Keyboard", keyCaps := some [30, 125] }]
    ⟨{ name := "USB Keyboard", keyCaps := some [30, 125] }, by decide, by decide⟩]
  rfl

/- ## Claims about the transcription dispatch -/

/-- C1 counterexample: when the underlying call exceeds its bounded
timeout, the invoked continuation is `onComplete none` — not `onError`
with a distinguishable timeout message as the claim states; a non-zero
exit status is likewise delivered as `onComplete none`. -/
theorem C1_counterexample :
    transcribe_async defaultProcessing "/models/ggml-medium.bin" "medium"
        .timeoutExpired = .onComplete none
    ∧ transcribe_async defaultProcessing "/models/ggml-medium.bin" "medium"
        (.completed 1 none) = .onComplete none := by
  constructor
  · rfl
  · rfl

/-- C1 amended: per dispatch exactly one continuation is invoked (the
dispatch computes one `ContinuationCall`; this assumes the continuation
itself returns normally — see the paste-failure path of C8).  The
exception raised before the bounded call when the model file is absent is
reported through `onError`; timeout expiry, a non-zero exit status, an
exception during the call and a missing output file are all caught inside
`transcribe` and reported as `onComplete none`, indistinguishable from a
clean run that found no speech. -/
theorem C1_dispatch_amended (flags : ProcessingFlags) (mp mn : String)
    (o : CallOutcome) :
    transcribe_async flags mp mn o = amendedDispatchSpec flags mp mn o := by
  cases o with
  | modelMissing => rfl
  | timeoutExpired => rfl
  | raisedOther m => rfl
  | completed rc tf =>
      by_cases h : rc = 0
      · cases tf <;> simp [transcribe_async, transcribe, amendedDispatchSpec, h]
      · cases tf <;> simp [transcribe_async, transcribe, amendedDispatchSpec, h]

/-- C8 counterexample: a successful transcription of "hi" (post-processed
to "Hi") with a failing paste produces only
`uiError "Transcription failed: boom"` — `uiSuccess` is never shown and
the paste failure is surfaced as a transcription error, contrary to the
claim that it is only logged. -/
theorem C8_counterexample :
    dispatchRun defaultProcessing "/models/ggml-medium.bin" "medium" (some "boom")
        (.completed 0 (some ['h', 'i']))
      = [.uiError "Transcription failed: boom"] := by
  rfl

/-- C8 amended: on success with non-empty text the result routes through
`paste(text)` first and `uiSuccess(text)` only after it returns; when
paste fails, its re-raised exception escapes the completion continuation,
so `uiSuccess` is not called and the dispatcher's `except` clause surfaces
the paste failure through the error continuation as
"Transcription failed: …". -/
theorem C8_paste_routing_amended :
    (∀ t : List Char, t ≠ [] →
        on_transcription_complete none (some t)
          = .ok [.pasteText (String.mk t), .uiSuccess (String.mk t)])
    ∧ (∀ (t : List Char) (e : String), t ≠ [] →
        on_transcription_complete (some e) (some t) = .error e)
    ∧ (∀ (flags : ProcessingFlags) (mp mn e : String) (o : CallOutcome)
          (t : List Char),
        transcribe flags mp mn o = .ok (some t) → t ≠ [] →
        dispatchRun flags mp mn (some e) o
          = [.uiError ("Transcription failed: " ++ e)])
    ∧ (∀ (flags : ProcessingFlags) (mp mn : String) (o : CallOutcome)
          (t : List Char),
        transcribe flags mp mn o = .ok (some t) → t ≠ [] →
        dispatchRun flags mp mn none o
          = [.pasteText (String.mk t), .uiSuccess (String.mk t)]) := by
  refine ⟨?_, ?_, ?_, ?_⟩
  · intro t ht
    cases t with
    | nil => exact absurd rfl ht
    | cons c cs => simp [on_transcription_complete, paste]
  · intro t e ht
    cases t with
    | nil => exact absurd rfl ht
    | cons c cs => simp [on_transcription_complete, paste]
  · intro flags mp mn e o t htr ht
    simp only [dispatchRun, htr]
    cases t with
    | nil => exact absurd rfl ht
    | cons c cs => simp [on_transcription_complete, paste, on_transcription_error]
  · intro flags mp mn o t htr ht
    simp only [dispatchRun, htr]
    cases t with
    | nil => exact absurd rfl ht
    | cons c cs => simp [on_transcription_complete, paste]

/-- Witness for C8's amended statement: the successful path at a concrete
outcome routes paste then success. -/
theorem C8_paste_routing_amended_witness :
    dispatchRun defaultProcessing "/models/ggml-medium.bin" "medium" none
        (.completed 0 (some ['h', 'i']))
      = [.pasteText "Hi", .uiSuccess "Hi"] := by
  rw [C8_paste_routing_amended.2.2.2 defaultProcessing "/models/ggml-medium.bin"
      "medium" (.completed 0 (some ['h', 'i'])) ['H', 'i'] (by rfl) (by decide)]

/- ## Claim about post-processing -/

theorem collapseWs_singleSpaced (cs : List Char) (b : Bool) :
    singleSpacedFrom b (collapseWs b cs) = true := by
  induction cs generalizing b with
  | nil => rfl
  | cons c cs ih =>
    by_cases hc : wsChar c = true
    · cases b with
      | false =>
          simp only [collapseWs, hc, if_true, List.singleton_append]
          simp only [singleSpacedFrom, wsChar]
          simpa using ih true
      | true =>
          simp only [collapseWs, hc, if_true, List.nil_append]
          exact ih true
    · rw [Bool.not_eq_true] at hc
      simp only [collapseWs, hc, Bool.false_eq_true, if_false, singleSpacedFrom]
      exact ih false

/-- C10: successful transcriptions are post-processed before delivery:
the processing flags default to true; a clean zero-status run delivers the
post-processed stripped file text, `none` when it is empty; the filler
scanner removes each of "um", "uh", "like", "you know" case-insensitively
when standalone but not inside a word; the collapse stage leaves only
single spaces; and the capitalization stage uppercases exactly the first
character of a non-empty result. -/
theorem C10_post_process_pipeline :
    (defaultProcessing.remove_filler_words = true
      ∧ defaultProcessing.auto_capitalize = true)
    ∧ (∀ (flags : ProcessingFlags) (mp mn : String) (raw : List Char),
        transcribe flags mp mn (.completed 0 (some raw))
          = .ok (if (post_process flags (stripChars raw)).isEmpty then none
                 else some (post_process flags (stripChars raw))))
    ∧ (∀ c1 c2 : Char, c1.toLower = 'u' → c2.toLower = 'm' →
        subFillers [c1, c2] = [])
    ∧ (∀ c1 c2 : Char, c1.toLower = 'u' → c2.toLower = 'h' →
        subFillers [c1, c2] = [])
    ∧ (∀ c1 c2 c3 c4 : Char, c1.toLower = 'l' → c2.toLower = 'i' →
        c3.toLower = 'k' → c4.toLower = 'e' → subFillers [c1, c2, c3, c4] = [])
    ∧ (∀ c1 c2 c3 c5 c6 c7 c8 : Char, c1.toLower = 'y' → c2.toLower = 'o' →
        c3.toLower = 'u' → c5.toLower = 'k' → c6.toLower = 'n' →
        c7.toLower = 'o' → c8.toLower = 'w' →
        subFillers [c1, c2, c3, ' ', c5, c6, c7, c8] = [])
    ∧ (∀ c : Char, isWordChar c = true →
        subFillers ['u', 'm', c] = ['u', 'm', c]
          ∧ subFillers [c, 'u', 'm'] = [c, 'u', 'm'])
    ∧ (∀ (b : Bool) (cs : List Char), singleSpacedFrom b (collapseWs b cs) = true)
    ∧ (∀ (flags : ProcessingFlags) (text : List Char),
        post_process flags text =
          if flags.auto_capitalize && !(preCapitalize flags text).isEmpty then
            capitalizeFirst (preCapitalize flags text)
          else preCapitalize flags text)
    ∧ (∀ (c : Char) (cs : List Char), capitalizeFirst (c :: cs) = c.toUpper :: cs) := by
  refine ⟨⟨rfl, rfl⟩, ?_, ?_, ?_, ?_, ?_, ?_, ?_, ?_, ?_⟩
  · intro flags mp mn raw
    rfl
  · intro c1 c2 h1 h2
    simp [subFillers, subFillersAux, fillerPatterns, tryFillers, matchCaseless,
          boundaryAfter, h1, h2]
  · intro c1 c2 h1 h2
    simp [subFillers, subFillersAux, fillerPatterns, tryFillers, matchCaseless,
          boundaryAfter, h1, h2]
  · intro c1 c2 c3 c4 h1 h2 h3 h4
    simp [subFillers, subFillersAux, fillerPatterns, tryFillers, matchCaseless,
          boundaryAfter, h1, h2, h3, h4]
  · intro c1 c2 c3 c5 c6 c7 c8 h1 h2 h3 h5 h6 h7 h8
    simp [subFillers, subFillersAux, fillerPatterns, tryFillers, matchCaseless,
          boundaryAfter, h1, h2, h3, h5, h6, h7, h8]
  · intro c h
    constructor
    · simp [subFillers, subFillersAux, fillerPatterns, tryFillers, matchCaseless,
            boundaryAfter, h]
    · simp [subFillers, subFillersAux, fillerPatterns, tryFillers, matchCaseless,
            boundaryAfter, h]
  · intro b cs
    exact collapseWs_singleSpaced cs b
  · intro flags text
    by_cases h : text.isEmpty
    · simp [post_process, preCapitalize, h]
    · simp [post_process, preCapitalize, h]
  · intro c cs
    rfl

/-- Witness for C10 at concrete inputs: "UM" and "LiKe" are removed whole,
"um" followed by a word character is kept, and a lowercase result is
capitalized. -/
theorem C10_post_process_pipeline_witness :
    subFillers ['U', 'M'] = []
    ∧ subFillers ['L', 'i', 'K', 'e'] = []
    ∧ subFillers ['u', 'm', 'x'] = ['u', 'm', 'x']
    ∧ capitalizeFirst ['h', 'i'] = ['H', 'i'] :=
  ⟨C10_post_process_pipeline.2.2.1 'U' 'M' (by decide) (by decide),
   C10_post_process_pipeline.2.2.2.2.1 'L' 'i' 'K' 'e'
     (by decide) (by decide) (by decide) (by decide),
   (C10_post_process_pipeline.2.2.2.2.2.2.1 'x' (by decide)).1,
   C10_post_process_pipeline.2.2.2.2.2.2.2.2.2 'h' ['i']⟩

end WhisperDictation
